import Mathlib

/-!
Verification of the flavor-resolution and release-synchronization logic of
the CurseForge mirror release pipeline (src/main.py), as a shallow embedding
in Lean.

Modelling conventions:
* Python strings are modelled as `List Char`; `str.startswith` is
  `List.isPrefixOf`, `len` is `List.length`, `str(n)` for a natural number
  is `Nat.toDigits 10 n` (the decimal digit characters, most significant
  first, exactly as `Nat.repr` produces them).
* Python exceptions are modelled with `Except PyError`.
* The external classifier `_bash_toc_to_type` performs file and subprocess
  I/O; it is modelled as an oracle `bash : Nat → Except PyError String`
  giving, for each interface number, either the trimmed stdout of the bash
  routine or the exception the call raises.  Within one resolution the
  oracle is a fixed function; across builds of one pipeline run the host
  environment may differ, so the run model takes a per-build oracle.
* Python `set` values built by set comprehensions are modelled as the
  deduplicated list of the collected elements (`List.dedup`): membership,
  cardinality and `pop()` on a singleton agree with the set semantics.
-/

/-- Exceptions of src/main.py that the resolution and publish paths can
raise: `FileNotFoundError` (interpreter absent), `FunctionExtractionError`
(mismatched braces in `_bash_toc_to_type`), `subprocess.CalledProcessError`
(interpreter exits non-zero, `check=True`), and `ValueError`
(`max()` of an empty sequence). -/
inductive PyError where
  | fileNotFound
  | functionExtraction
  | calledProcess
  | valueError
deriving DecidableEq, Repr

/-- Embedding of `ReleasePipeline.toc_to_type` (src/main.py lines 154-168):
the built-in classifier.  `str(toc_version)` is the decimal digit list;
`startswith` is list-prefix. -/
def toc_to_type (toc_version : Nat) : String :=
  let s := Nat.toDigits 10 toc_version
  if "11".toList.isPrefixOf s && s.length == 5 then "classic"
  else if "20".toList.isPrefixOf s then "bcc"
  else if "30".toList.isPrefixOf s then "wrath"
  else if "40".toList.isPrefixOf s then "cata"
  else "retail"

/-- Embedding of the set comprehension
`{self._bash_toc_to_type(iv) for iv in ivals}` (src/main.py line 202):
calls the external classifier on each interface number in list order,
collecting the results; the first call that raises aborts the
comprehension with that exception. -/
def trySlugs (bash : Nat → Except PyError String) : List Nat → Except PyError (List String)
  | [] => Except.ok []
  | iv :: rest =>
    match bash iv with
    | Except.ok s => (trySlugs bash rest).map (fun t => s :: t)
    | Except.error e => Except.error e

/-- Python `max` over a list of naturals: `none` models the `ValueError`
raised on an empty sequence. -/
def pymax : List Nat → Option Nat
  | [] => none
  | x :: xs => some (xs.foldl max x)

/-- Embedding of src/main.py lines 206-214: the shared tail of `_pick_slug`
after the slug set has been computed.  `fallback` is the local flag set by
the `except FileNotFoundError` handler; `slugs` is the (deduplicated) slug
set; `ivals` the interface numbers.  In the non-fallback multi-slug case a
fresh external call is made on `max(ivals)` (outside the `try`). -/
def pickTail (bash : Nat → Except PyError String) (fallback : Bool)
    (slugs : List String) (ivals : List Nat) : Except PyError String :=
  if "retail" ∈ slugs then Except.ok ""
  else if slugs.length = 1 then Except.ok (slugs.headD "")
  else if fallback then
    match pymax ivals with
    | some m => Except.ok (toc_to_type m)
    | none => Except.error PyError.valueError
  else
    match pymax ivals with
    | some m => bash m
    | none => Except.error PyError.valueError

/-- Embedding of `ReleasePipeline._pick_slug` (src/main.py lines 192-214)
over the list of interface numbers already derived from the build's game
versions.  The `try` block attempts the external classifier on every
interface number; only `FileNotFoundError` is caught (line 203), switching
the local `fallback` flag and recomputing the slug set with the built-in
classifier; any other exception propagates. -/
def pickSlug (bash : Nat → Except PyError String) (ivals : List Nat) :
    Except PyError String :=
  match trySlugs bash ivals with
  | Except.error PyError.fileNotFound =>
      pickTail bash true ((ivals.map toc_to_type).dedup) ivals
  | Except.error e => Except.error e
  | Except.ok raw => pickTail bash false raw.dedup ivals

/-- Embedding of the per-build resolution loop of `ReleasePipeline.run`
(src/main.py line 298): each build's `_pick_slug` call is an independent
invocation against the host environment current at that point of the run,
modelled by indexing the oracle with the build's position.  The first
uncaught exception aborts the run (propagating into the pipeline retry). -/
def runResolve (bashAt : Nat → Nat → Except PyError String) :
    List (List Nat) → Nat → Except PyError (List String)
  | [], _ => Except.ok []
  | build :: rest, k =>
    match pickSlug (bashAt k) build with
    | Except.ok s => (runResolve bashAt rest (k + 1)).map (fun t => s :: t)
    | Except.error e => Except.error e

/-- Python `\s` whitespace class over ASCII characters, as used by the
`re.match` pattern in `_bash_toc_to_type`. -/
def isPySpace (c : Char) : Bool :=
  c == ' ' || c == '\t' || c == '\n' || c == '\r' || c == '\x0b' || c == '\x0c'

/-- Embedding of the opening-line test
`re.match(r"^\s*toc_to_type\s*\(\)\s*\x7b", line)` (src/main.py line 116):
optional whitespace, the literal routine name, optional whitespace, the
characters "()", optional whitespace, then an opening brace; anything may
follow. -/
def matchesOpen (l : List Char) : Bool :=
  let l1 := l.dropWhile isPySpace
  "toc_to_type".toList.isPrefixOf l1 &&
    (match (l1.drop 11).dropWhile isPySpace with
     | '(' :: ')' :: rest =>
       match rest.dropWhile isPySpace with
       | '\x7b' :: _ => true
       | _ => false
     | _ => false)

/-- Embedding of the scanning loop of `_bash_toc_to_type`
(src/main.py lines 111-125): state is (remaining lines, capture flag, brace
counter, accumulated body).  Before capture, a line either matches the
opening pattern (start capturing, counter set to one, line appended) or is
skipped.  During capture the counter is adjusted by the line's brace counts,
the line is appended, and the loop breaks when the counter returns to zero.
The counter is an integer: surplus closing braces drive it negative. -/
def scanFunc : List (List Char) → Bool → Int → List (List Char) → Int × List (List Char)
  | [], _, bc, acc => (bc, acc)
  | l :: rest, false, bc, acc =>
    if matchesOpen l then scanFunc rest true (bc + 1) (acc ++ [l])
    else scanFunc rest false bc acc
  | l :: rest, true, bc, acc =>
    let bc2 := bc + (l.count '\x7b' : Int) - (l.count '\x7d' : Int)
    if bc2 = 0 then (bc2, acc ++ [l]) else scanFunc rest true bc2 (acc ++ [l])

/-- Embedding of the extraction part of `_bash_toc_to_type`
(src/main.py lines 111-130): run the scanning loop over the lines of the
local `release.sh` copy; raise `FunctionExtractionError` exactly when the
final brace counter is nonzero, otherwise return the accumulated body. -/
def extractRoutine (lines : List (List Char)) : Except PyError (List (List Char)) :=
  let r := scanFunc lines false 0 []
  if r.1 ≠ 0 then Except.error PyError.functionExtraction else Except.ok r.2

/-- Embedding of the interface-number computation of `_pick_slug`
(src/main.py lines 196-200) on the already-split numeric components of a
game-version name: `major*10000 + minor*100 + patch`, patch defaulting to 0
when there is no third component.  The data invariant guarantees at least
two components; out-of-range reads default to 0 here. -/
def pickSlugIface (parts : List Nat) : Nat :=
  let major := parts.getD 0 0
  let minor := parts.getD 1 0
  let patch := if 2 < parts.length then parts.getD 2 0 else 0
  major * 10000 + minor * 100 + patch

/-- Embedding of the interface-number computation of `_build_manifest`
(src/main.py lines 244-249), written exactly as that code site computes it:
`parts[0]*10000 + parts[1]*100 + (parts[2] if len(parts) > 2 else 0)`. -/
def manifestIface (parts : List Nat) : Nat :=
  parts.getD 0 0 * 10000 + parts.getD 1 0 * 100 +
    (if 2 < parts.length then parts.getD 2 0 else 0)

/-- Python `name.split(".")` on a character-list string: splits on every
dot, keeping empty segments. -/
def splitDot : List Char → List (List Char)
  | [] => [[]]
  | c :: rest =>
    if c = '.' then [] :: splitDot rest
    else
      match splitDot rest with
      | g :: gs => (c :: g) :: gs
      | [] => [[c]]

/-- Python `int(s)` on a string of decimal digits. -/
def pyInt (l : List Char) : Nat :=
  l.foldl (fun a c => a * 10 + (c.toNat - 48)) 0

/-- The interface number derived from a dotted game-version name as
`_pick_slug` computes it: split on dots, convert each component with
`int`, apply the packing formula. -/
def ifaceOfName (name : List Char) : Nat :=
  pickSlugIface ((splitDot name).map pyInt)

/-- A build file as surfaced by the mod lookup endpoint: the fields
`_get_latest_files` reads (src/main.py lines 175-190). -/
structure CFile where
  id : Nat
  releaseType : Nat
  fileName : String
deriving DecidableEq, Repr

/-- One assignment `d[k] = v` of a Python dict modelled as an ordered
association list: overwrite the existing binding of `k` if present,
otherwise append a new binding. -/
def dictInsert (d : List (Nat × CFile)) (k : Nat) (v : CFile) : List (Nat × CFile) :=
  if k ∈ d.map Prod.fst then
    d.map (fun p => if p.1 = k then (k, v) else p)
  else d ++ [(k, v)]

/-- Embedding of the dict comprehension
`{f["id"]: f for f in latestFiles if f["releaseType"] == 1}`
(src/main.py lines 180-182). -/
def buildLatestDict (files : List CFile) : List (Nat × CFile) :=
  files.foldl (fun d f => if f.releaseType = 1 then dictInsert d f.id f else d) []

/-- Python `latest[fid]` lookup (the model never calls it on an absent
key thanks to the `fid in latest` guard). -/
def dictFind (d : List (Nat × CFile)) (k : Nat) : Option CFile :=
  (d.find? (fun p => p.1 = k)).map Prod.snd

/-- Embedding of the selection loop of `_get_latest_files`
(src/main.py lines 183-189): walk `latestFilesIndexes` in declared order,
appending the dict entry for each first-seen eligible file id. -/
def selectLoop : List Nat → List Nat → List CFile → List (Nat × CFile) → List CFile
  | [], _, ordered, _ => ordered
  | fid :: rest, seen, ordered, latest =>
    if fid ∈ seen then selectLoop rest seen ordered latest
    else
      match dictFind latest fid with
      | some f => selectLoop rest (fid :: seen) (ordered ++ [f]) latest
      | none => selectLoop rest seen ordered latest

/-- Embedding of `ReleasePipeline._get_latest_files`
(src/main.py lines 175-190), taking the fetched `latestFiles` list and the
`fileId` column of `latestFilesIndexes` as inputs. -/
def getLatestFiles (files : List CFile) (indexes : List Nat) : List CFile :=
  selectLoop indexes [] [] (buildLatestDict files)

/-- An HTTP response as far as `_get_or_create_release` inspects it:
status code and the `upload_url` field of the JSON body. -/
structure HttpResp where
  status : Nat
  uploadUrl : List Char
deriving DecidableEq, Repr

/-- `requests` `raise_for_status`: raises exactly for client and server
error codes, 400-599. -/
def raisesForStatus (s : Nat) : Prop := 400 ≤ s ∧ s < 600

instance : DecidablePred raisesForStatus := fun s =>
  inferInstanceAs (Decidable (400 ≤ s ∧ s < 600))

/-- Python `upload_url.split("\x7b")[0]`: the prefix before the first
opening brace (the whole string when none occurs). -/
def uploadTarget (u : List Char) : List Char :=
  u.takeWhile (fun c => c ≠ '\x7b')

/-- Outcome of `_get_or_create_release`: whether the create `POST` was
issued, and either the resolved upload target or the status that
`raise_for_status` raised on. -/
structure SyncOutcome where
  createPosted : Bool
  result : Except Nat (List Char)
deriving Repr

/-- Embedding of `ReleasePipeline._get_or_create_release`
(src/main.py lines 262-276): `GET` the release by tag; on status 404 `POST`
a create request and continue with its response; then `raise_for_status`
on whichever response is current and return the upload target derived from
its `upload_url`. -/
def getOrCreateRelease (lookup create : HttpResp) : SyncOutcome :=
  if lookup.status = 404 then
    if raisesForStatus create.status then ⟨true, Except.error create.status⟩
    else ⟨true, Except.ok (uploadTarget create.uploadUrl)⟩
  else if raisesForStatus lookup.status then ⟨false, Except.error lookup.status⟩
  else ⟨false, Except.ok (uploadTarget lookup.uploadUrl)⟩

/-- The external classifier assigns `cf` to every interface number of the
build: either every external call succeeds and returns `cf` pointwise, or
every call raises `FileNotFoundError` (interpreter absent) and the
classification in effect is the built-in one. -/
def ClassifiesAs (bash : Nat → Except PyError String) (cf : Nat → String)
    (ivals : List Nat) : Prop :=
  (∀ iv ∈ ivals, bash iv = Except.ok (cf iv)) ∨
    ((∀ iv ∈ ivals, bash iv = Except.error PyError.fileNotFound) ∧ cf = toc_to_type)

lemma foldl_max_mem (xs : List Nat) (x : Nat) :
    xs.foldl max x = x ∨ xs.foldl max x ∈ xs := by
  induction xs generalizing x with
  | nil => exact Or.inl rfl
  | cons y ys ih =>
    rcases ih (max x y) with h | h
    · rcases max_choice x y with hc | hc
      · exact Or.inl (by rw [List.foldl_cons, h, hc])
      · exact Or.inr (by
          rw [List.foldl_cons, h, hc]; exact List.mem_cons_self _ _)
    · exact Or.inr (List.mem_cons_of_mem _ h)

lemma foldl_max_le (xs : List Nat) (x : Nat) :
    x ≤ xs.foldl max x ∧ ∀ y ∈ xs, y ≤ xs.foldl max x := by
  induction xs generalizing x with
  | nil => exact ⟨Nat.le_refl x, by intro y hy; cases hy⟩
  | cons z zs ih =>
    obtain ⟨h1, h2⟩ := ih (max x z)
    refine ⟨Nat.le_trans (le_max_left x z) h1, ?_⟩
    intro y hy
    rcases List.mem_cons.mp hy with rfl | hy
    · exact Nat.le_trans (le_max_right x y) h1
    · exact h2 y hy

lemma pymax_mem {l : List Nat} {m : Nat} (h : pymax l = some m) : m ∈ l := by
  cases l with
  | nil => cases h
  | cons x xs =>
    unfold pymax at h
    injection h with h
    rcases foldl_max_mem xs x with hm | hm
    · rw [← h, hm]; exact List.mem_cons_self _ _
    · rw [← h]; exact List.mem_cons_of_mem _ hm

lemma pymax_le {l : List Nat} {m : Nat} (h : pymax l = some m) :
    ∀ x ∈ l, x ≤ m := by
  cases l with
  | nil => cases h
  | cons x xs =>
    unfold pymax at h
    injection h with h
    intro y hy
    rcases List.mem_cons.mp hy with rfl | hy
    · rw [← h]; exact (foldl_max_le xs y).1
    · rw [← h]; exact (foldl_max_le xs x).2 y hy

lemma pymax_cons (x : Nat) (xs : List Nat) : ∃ m, pymax (x :: xs) = some m :=
  ⟨xs.foldl Nat.max x, rfl⟩

lemma trySlugs_ok (bash : Nat → Except PyError String) (cf : Nat → String)
    (ivals : List Nat) (h : ∀ iv ∈ ivals, bash iv = Except.ok (cf iv)) :
    trySlugs bash ivals = Except.ok (ivals.map cf) := by
  induction ivals with
  | nil => rfl
  | cons iv rest ih =>
    unfold trySlugs
    rw [h iv (List.mem_cons_self _ _), ih (fun x hx => h x (List.mem_cons_of_mem _ hx))]
    rfl

lemma trySlugs_fnf (bash : Nat → Except PyError String) (iv : Nat) (rest : List Nat)
    (h : bash iv = Except.error PyError.fileNotFound) :
    trySlugs bash (iv :: rest) = Except.error PyError.fileNotFound := by
  unfold trySlugs
  rw [h]

lemma dedup_all_eq {l : List String} {s : String}
    (h : ∀ x ∈ l, x = s) (hne : l ≠ []) : l.dedup = [s] := by
  induction l with
  | nil => cases hne rfl
  | cons a rest ih =>
    have ha : a = s := h a (List.mem_cons_self _ _)
    cases rest with
    | nil => simp [ha]
    | cons b rbs =>
      have hrest : (b :: rbs).dedup = [s] :=
        ih (fun x hx => h x (List.mem_cons_of_mem _ hx)) (by simp)
      have hmem : a ∈ b :: rbs := by
        rw [ha, ← h b (by simp)]; exact List.mem_cons_self _ _
      rw [List.dedup_cons_of_mem hmem, hrest]

lemma pickSlug_ok_case {bash : Nat → Except PyError String} {ivals : List Nat}
    {raw : List String} (h : trySlugs bash ivals = Except.ok raw) :
    pickSlug bash ivals = pickTail bash false raw.dedup ivals := by
  unfold pickSlug
  rw [h]

lemma pickSlug_fnf_case {bash : Nat → Except PyError String} {ivals : List Nat}
    (h : trySlugs bash ivals = Except.error PyError.fileNotFound) :
    pickSlug bash ivals = pickTail bash true ((ivals.map toc_to_type).dedup) ivals := by
  unfold pickSlug
  rw [h]

lemma pickTail_retail {bash : Nat → Except PyError String} {fb : Bool}
    {slugs : List String} {ivals : List Nat} (h : "retail" ∈ slugs) :
    pickTail bash fb slugs ivals = Except.ok "" := by
  unfold pickTail
  rw [if_pos h]

lemma pickTail_single {bash : Nat → Except PyError String} {fb : Bool}
    {slugs : List String} {ivals : List Nat}
    (hr : "retail" ∉ slugs) (h : slugs.length = 1) :
    pickTail bash fb slugs ivals = Except.ok (slugs.headD "") := by
  unfold pickTail
  rw [if_neg hr, if_pos h]

lemma pickTail_multi_fallback {bash : Nat → Except PyError String}
    {slugs : List String} {ivals : List Nat}
    (hr : "retail" ∉ slugs) (h : slugs.length ≠ 1) :
    pickTail bash true slugs ivals =
      (match pymax ivals with
       | some m => Except.ok (toc_to_type m)
       | none => Except.error PyError.valueError) := by
  unfold pickTail
  rw [if_neg hr, if_neg h, if_pos rfl]

lemma pickTail_multi_external {bash : Nat → Except PyError String}
    {slugs : List String} {ivals : List Nat}
    (hr : "retail" ∉ slugs) (h : slugs.length ≠ 1) :
    pickTail bash false slugs ivals =
      (match pymax ivals with
       | some m => bash m
       | none => Except.error PyError.valueError) := by
  unfold pickTail
  rw [if_neg hr, if_neg h, if_neg (by simp)]

lemma toc_range (n : Nat) :
    toc_to_type n = "classic" ∨ toc_to_type n = "bcc" ∨ toc_to_type n = "wrath" ∨
      toc_to_type n = "cata" ∨ toc_to_type n = "retail" := by
  simp only [toc_to_type]
  split_ifs <;> simp

lemma bool_ne_true {b : Bool} (h : b = false) : ¬(b = true) := by
  intro hc
  rw [h] at hc
  exact Bool.noConfusion hc

lemma band_first_false {a b : Bool} (h : a = false) : ¬((a && b) = true) := by
  intro hc
  rw [h, Bool.false_and] at hc
  exact Bool.noConfusion hc

lemma band_distinct {x b y d : Char} {s : List Char}
    (h : List.isPrefixOf [x, b] s = true) (hxy : y ≠ x) :
    List.isPrefixOf [y, d] s = false := by
  cases s with
  | nil => simp [List.isPrefixOf] at h
  | cons a as =>
    cases as with
    | nil => simp [List.isPrefixOf] at h
    | cons c cs =>
      simp only [List.isPrefixOf, Bool.and_eq_true, beq_iff_eq] at h
      have hya : y ≠ a := fun he => hxy (he.trans h.1.symm)
      simp [List.isPrefixOf, hya]

lemma scan_no_open (lines : List (List Char)) (bc : Int) (acc : List (List Char))
    (h : ∀ l ∈ lines, matchesOpen l = false) :
    scanFunc lines false bc acc = (bc, acc) := by
  induction lines with
  | nil => rfl
  | cons l rest ih =>
    unfold scanFunc
    rw [h l (List.mem_cons_self _ _)]
    exact ih (fun x hx => h x (List.mem_cons_of_mem _ hx))

example : toc_to_type 11506 = "classic" := rfl
example : toc_to_type 40402 = "cata" := rfl
example : toc_to_type 90205 = "retail" := rfl
example : toc_to_type 110000 = "retail" := rfl
example : pickSlug (fun _ => Except.error PyError.fileNotFound) [11506] = Except.ok "classic" := rfl
example : pickSlug (fun _ => Except.error PyError.functionExtraction) [11506] =
    Except.error PyError.functionExtraction := rfl
example : pickSlug (fun _ => Except.error PyError.fileNotFound) [11506, 100000] = Except.ok "" := rfl
example : pickSlug (fun _ => Except.error PyError.fileNotFound) [11506, 40402] = Except.ok "cata" := rfl

/-- Claim C6: the built-in classifier is a total deterministic function of
the interface number (`toc_to_type` is a Lean function, hence both): a
decimal representation beginning with "11" and exactly 5 digits long maps
to "classic"; beginning with "20" to "bcc"; "30" to "wrath"; "40" to
"cata"; every other value (all four tests failing) maps to "retail";
together with the spec's five numeric examples. -/
theorem builtin_classifier_bands :
    (∀ n : Nat,
      ("11".toList.isPrefixOf (Nat.toDigits 10 n) = true →
        (Nat.toDigits 10 n).length = 5 → toc_to_type n = "classic") ∧
      ("20".toList.isPrefixOf (Nat.toDigits 10 n) = true → toc_to_type n = "bcc") ∧
      ("30".toList.isPrefixOf (Nat.toDigits 10 n) = true → toc_to_type n = "wrath") ∧
      ("40".toList.isPrefixOf (Nat.toDigits 10 n) = true → toc_to_type n = "cata") ∧
      (("11".toList.isPrefixOf (Nat.toDigits 10 n) && (Nat.toDigits 10 n).length == 5) = false →
        "20".toList.isPrefixOf (Nat.toDigits 10 n) = false →
        "30".toList.isPrefixOf (Nat.toDigits 10 n) = false →
        "40".toList.isPrefixOf (Nat.toDigits 10 n) = false →
        toc_to_type n = "retail")) ∧
    toc_to_type 40402 = "cata" ∧ toc_to_type 11506 = "classic" ∧
    toc_to_type 20504 = "bcc" ∧ toc_to_type 30402 = "wrath" ∧
    toc_to_type 90205 = "retail" := by
  refine ⟨?_, rfl, rfl, rfl, rfl, rfl⟩
  intro n
  have e11 : "11".toList = ['1', '1'] := rfl
  have e20 : "20".toList = ['2', '0'] := rfl
  have e30 : "30".toList = ['3', '0'] := rfl
  have e40 : "40".toList = ['4', '0'] := rfl
  refine ⟨?_, ?_, ?_, ?_, ?_⟩
  · intro h1 h2
    simp only [toc_to_type]
    rw [if_pos (show _ = true by rw [h1, h2]; rfl)]
  · intro h
    rw [e20] at h
    have h11 : "11".toList.isPrefixOf (Nat.toDigits 10 n) = false := by
      rw [e11]; exact band_distinct h (by decide)
    simp only [toc_to_type]
    rw [if_neg (band_first_false h11), if_pos (show _ = true by rw [e20]; exact h)]
  · intro h
    rw [e30] at h
    have h11 : "11".toList.isPrefixOf (Nat.toDigits 10 n) = false := by
      rw [e11]; exact band_distinct h (by decide)
    have h20 : "20".toList.isPrefixOf (Nat.toDigits 10 n) = false := by
      rw [e20]; exact band_distinct h (by decide)
    simp only [toc_to_type]
    rw [if_neg (band_first_false h11), if_neg (bool_ne_true h20),
      if_pos (show _ = true by rw [e30]; exact h)]
  · intro h
    rw [e40] at h
    have h11 : "11".toList.isPrefixOf (Nat.toDigits 10 n) = false := by
      rw [e11]; exact band_distinct h (by decide)
    have h20 : "20".toList.isPrefixOf (Nat.toDigits 10 n) = false := by
      rw [e20]; exact band_distinct h (by decide)
    have h30 : "30".toList.isPrefixOf (Nat.toDigits 10 n) = false := by
      rw [e30]; exact band_distinct h (by decide)
    simp only [toc_to_type]
    rw [if_neg (band_first_false h11), if_neg (bool_ne_true h20), if_neg (bool_ne_true h30),
      if_pos (show _ = true by rw [e40]; exact h)]
  · intro hand h20 h30 h40
    simp only [toc_to_type]
    rw [if_neg (bool_ne_true hand), if_neg (bool_ne_true h20), if_neg (bool_ne_true h30),
      if_neg (bool_ne_true h40)]

/-- Witness for C6: the "20" band test succeeds on 20504 and the theorem
yields the classification "bcc"; evaluation confirms the band test. -/
theorem builtin_classifier_bands_witness :
    "20".toList.isPrefixOf (Nat.toDigits 10 20504) = true ∧ toc_to_type 20504 = "bcc" :=
  ⟨by decide, (builtin_classifier_bands.1 20504).2.1 (by decide)⟩

/-- Claim C5: on any version whose dotted name has at least two numeric
components (modelled as the component list `major :: minor :: rest`), both
the flavor-resolution site and the manifest-building site compute the
interface number as `major*10000 + minor*100 + patch` with patch
defaulting to 0 when the third component is absent; together with the
spec's three dotted-string examples computed through splitting and
integer conversion. -/
theorem iface_packing :
    (∀ (major minor : Nat) (rest : List Nat),
      pickSlugIface (major :: minor :: rest) = major * 10000 + minor * 100 + rest.headD 0 ∧
      manifestIface (major :: minor :: rest) = major * 10000 + minor * 100 + rest.headD 0) ∧
    ifaceOfName "4.4.0".toList = 40400 ∧
    ifaceOfName "1.15.6".toList = 11506 ∧
    ifaceOfName "2.5".toList = 20500 := by
  refine ⟨?_, rfl, rfl, rfl⟩
  intro major minor rest
  cases rest with
  | nil => exact ⟨rfl, rfl⟩
  | cons p ps =>
    have hlt : 2 < (major :: minor :: p :: ps).length := by
      simp only [List.length_cons]; omega
    constructor
    · simp only [pickSlugIface, if_pos hlt, List.getD_cons_zero, List.getD_cons_succ,
        List.headD_cons]
    · simp only [manifestIface, if_pos hlt, List.getD_cons_zero, List.getD_cons_succ,
        List.headD_cons]

/-- Counterexample to C7 as stated: a file in which the opening line of the
routine never occurs.  Extraction returns successfully with an empty body
instead of raising the extraction error the claim requires. -/
theorem extract_missing_open_cx :
    extractRoutine ["echo hi".toList] = Except.ok [] := rfl

/-- Claim C7 (amended): extraction raises `FunctionExtractionError` exactly
when the scan ends with a nonzero brace counter; but when the opening line
is never found the counter stays zero, so extraction succeeds with an
empty body (the failure only surfaces later when the materialized script
is executed). -/
theorem extract_error_characterization :
    (∀ lines : List (List Char),
      (extractRoutine lines = Except.error PyError.functionExtraction ↔
        (scanFunc lines false 0 []).1 ≠ 0)) ∧
    (∀ lines : List (List Char),
      (∀ l ∈ lines, matchesOpen l = false) → extractRoutine lines = Except.ok []) := by
  constructor
  · intro lines
    simp only [extractRoutine]
    split_ifs with h
    · simp [h]
    · simp [h]
  · intro lines hno
    simp only [extractRoutine]
    rw [scan_no_open lines 0 [] hno]
    rfl

/-- Witness for C7 (amended): a one-line file with no opening line, where
extraction succeeds with an empty body, and a malformed file whose opening
line is never closed, where the counter stays nonzero and the error is
raised. -/
theorem extract_error_characterization_witness :
    extractRoutine ["x=1".toList] = Except.ok [] ∧
    (extractRoutine ["toc_to_type() \x7b".toList] = Except.error PyError.functionExtraction ↔
      (scanFunc ["toc_to_type() \x7b".toList] false 0 []).1 ≠ 0) :=
  ⟨extract_error_characterization.2 ["x=1".toList] (by decide),
   extract_error_characterization.1 ["toc_to_type() \x7b".toList]⟩

example : extractRoutine ["toc_to_type() \x7b".toList] = Except.error PyError.functionExtraction := rfl
example : extractRoutine ["toc_to_type() \x7b".toList, "\x7d".toList] =
    Except.ok ["toc_to_type() \x7b".toList, "\x7d".toList] := rfl

/-- Counterexample to C1 as stated: an extraction failure of the external
classifier (`FunctionExtractionError`) is not recovered by `_pick_slug` —
only `FileNotFoundError` is caught — so it propagates out of the resolve
operation. -/
theorem resolve_extraction_error_cx :
    pickSlug (fun _ => Except.error PyError.functionExtraction) [11506] =
      Except.error PyError.functionExtraction := rfl

/-- Claim C1 (amended): of the external classifier's failure modes, only
the interpreter-missing failure (`FileNotFoundError`) raised while
classifying the version list is recovered by falling back to the built-in
classifier; a malformed-routine extraction error and a non-zero-exit
execution error both propagate out of the resolve operation. -/
theorem resolve_failure_recovery :
    (∀ ivals : List Nat, ivals ≠ [] →
      ∃ s, pickSlug (fun _ => Except.error PyError.fileNotFound) ivals = Except.ok s) ∧
    (∀ (bash : Nat → Except PyError String) (iv : Nat) (rest : List Nat),
      bash iv = Except.error PyError.functionExtraction →
      pickSlug bash (iv :: rest) = Except.error PyError.functionExtraction) ∧
    (∀ (bash : Nat → Except PyError String) (iv : Nat) (rest : List Nat),
      bash iv = Except.error PyError.calledProcess →
      pickSlug bash (iv :: rest) = Except.error PyError.calledProcess) := by
  refine ⟨?_, ?_, ?_⟩
  · intro ivals hne
    cases ivals with
    | nil => cases hne rfl
    | cons iv rest =>
      rw [pickSlug_fnf_case (trySlugs_fnf _ iv rest rfl)]
      by_cases hr : "retail" ∈ (((iv :: rest).map toc_to_type).dedup)
      · exact ⟨"", pickTail_retail hr⟩
      by_cases hl : (((iv :: rest).map toc_to_type).dedup).length = 1
      · exact ⟨_, pickTail_single hr hl⟩
      · rw [pickTail_multi_fallback hr hl]
        obtain ⟨m, hm⟩ := pymax_cons iv rest
        rw [hm]
        exact ⟨toc_to_type m, rfl⟩
  · intro bash iv rest h
    have ht : trySlugs bash (iv :: rest) = Except.error PyError.functionExtraction := by
      unfold trySlugs
      rw [h]
    unfold pickSlug
    rw [ht]
  · intro bash iv rest h
    have ht : trySlugs bash (iv :: rest) = Except.error PyError.calledProcess := by
      unfold trySlugs
      rw [h]
    unfold pickSlug
    rw [ht]

/-- Witness for C1 (amended): on the one-version build [11506] the
interpreter-missing failure falls back to the built-in "classic", while an
execution error propagates. -/
theorem resolve_failure_recovery_witness :
    (∃ s, pickSlug (fun _ => Except.error PyError.fileNotFound) [11506] = Except.ok s) ∧
    pickSlug (fun _ => Except.error PyError.calledProcess) [11506] =
      Except.error PyError.calledProcess :=
  ⟨resolve_failure_recovery.1 [11506] (by simp),
   resolve_failure_recovery.2.2 (fun _ => Except.error PyError.calledProcess) 11506 [] rfl⟩

/-- A host environment that changes between builds: the interpreter is
absent while the first build resolves and present again afterwards,
answering "bcc" to every classification. -/
def bashDemo (k : Nat) : Nat → Except PyError String := fun _ =>
  if k = 0 then Except.error PyError.fileNotFound else Except.ok "bcc"

/-- Counterexample to C2 as stated: the fallback flag of `_pick_slug` is a
local variable re-initialized on every call, so after build 0 falls back
to the built-in classifier (yielding "classic"), build 1 re-attempts and
uses the external classifier again (yielding its answer "bcc" rather than
the built-in "classic"). -/
theorem run_fallback_not_sticky_cx :
    runResolve bashDemo [[11506], [11506]] 0 = Except.ok ["classic", "bcc"] ∧
    toc_to_type 11506 = "classic" := ⟨rfl, rfl⟩

/-- Claim C2 (amended): the fallback is scoped to a single build's
resolution: once the initial classification attempt of a resolution fails
with `FileNotFoundError`, the result of that resolution no longer depends
on the external classifier at all (no mixing within one build); later
builds' resolutions re-attempt the external classifier afresh. -/
theorem fallback_consistent_within_resolution :
    ∀ (bash bash2 : Nat → Except PyError String) (ivals : List Nat),
      trySlugs bash ivals = Except.error PyError.fileNotFound →
      trySlugs bash2 ivals = Except.error PyError.fileNotFound →
      pickSlug bash ivals = pickSlug bash2 ivals := by
  intro bash bash2 ivals h1 h2
  rw [pickSlug_fnf_case h1, pickSlug_fnf_case h2]
  unfold pickTail
  split_ifs <;> first | rfl | simp_all

/-- Witness for C2 (amended): two oracles that both fail with
`FileNotFoundError` on the initial attempt but differ elsewhere produce
the same resolution for the build [11506]. -/
theorem fallback_consistent_within_resolution_witness :
    pickSlug (fun _ => Except.error PyError.fileNotFound) [11506] =
      pickSlug (fun iv => if iv = 0 then Except.ok "other"
        else Except.error PyError.fileNotFound) [11506] :=
  fallback_consistent_within_resolution _ _ [11506] rfl rfl

/-- Claim C3: whenever the classification in effect (external on success,
built-in after an interpreter-missing fallback) assigns "retail" to any of
the build's interface numbers, the resolution returns the empty slug "",
regardless of the other members. -/
theorem resolve_retail_overrides :
    ∀ (bash : Nat → Except PyError String) (cf : Nat → String) (ivals : List Nat),
      ClassifiesAs bash cf ivals → "retail" ∈ ivals.map cf →
      pickSlug bash ivals = Except.ok "" := by
  intro bash cf ivals hc hmem
  rcases hc with hok | ⟨hfnf, hcf⟩
  · rw [pickSlug_ok_case (trySlugs_ok bash cf ivals hok)]
    exact pickTail_retail (List.mem_dedup.mpr hmem)
  · subst hcf
    cases ivals with
    | nil => cases hmem
    | cons iv rest =>
      rw [pickSlug_fnf_case (trySlugs_fnf bash iv rest (hfnf iv (List.mem_cons_self _ _)))]
      exact pickTail_retail (List.mem_dedup.mpr hmem)

/-- Witness for C3: under the built-in classification (interpreter absent),
the build with versions 11506 (classic) and 100000 (retail) resolves to the
empty slug. -/
theorem resolve_retail_overrides_witness :
    pickSlug (fun _ => Except.error PyError.fileNotFound) [11506, 100000] =
      Except.ok "" :=
  resolve_retail_overrides (fun _ => Except.error PyError.fileNotFound) toc_to_type
    [11506, 100000] (Or.inr ⟨fun _ _ => rfl, rfl⟩) (by decide)

/-- Claim C4: when the classification in effect assigns no "retail" slug,
a build spanning two or more distinct slugs resolves to the classification
of the maximum interface number (which is a member of and an upper bound
of the build's interface numbers), and a build whose versions all classify
to one identical slug resolves to that slug. -/
theorem resolve_tie_break :
    ∀ (bash : Nat → Except PyError String) (cf : Nat → String) (ivals : List Nat),
      ClassifiesAs bash cf ivals → "retail" ∉ ivals.map cf →
      ((∀ m, pymax ivals = some m → 2 ≤ ((ivals.map cf).dedup).length →
          m ∈ ivals ∧ (∀ x ∈ ivals, x ≤ m) ∧ pickSlug bash ivals = Except.ok (cf m)) ∧
       (∀ s, ivals ≠ [] → (∀ iv ∈ ivals, cf iv = s) →
          pickSlug bash ivals = Except.ok s)) := by
  intro bash cf ivals hc hnr
  constructor
  · intro m hm hlen
    refine ⟨pymax_mem hm, pymax_le hm, ?_⟩
    have hr : "retail" ∉ ((ivals.map cf).dedup) := fun h => hnr (List.mem_dedup.mp h)
    have hne1 : ((ivals.map cf).dedup).length ≠ 1 := by omega
    rcases hc with hok | ⟨hfnf, hcf⟩
    · rw [pickSlug_ok_case (trySlugs_ok bash cf ivals hok),
        pickTail_multi_external hr hne1, hm]
      exact hok m (pymax_mem hm)
    · subst hcf
      cases ivals with
      | nil => cases hm
      | cons iv rest =>
        rw [pickSlug_fnf_case (trySlugs_fnf bash iv rest (hfnf _ (List.mem_cons_self _ _))),
          pickTail_multi_fallback hr hne1, hm]
  · intro s hne hall
    have hs : s ∈ ivals.map cf := by
      cases ivals with
      | nil => cases hne rfl
      | cons a b =>
        exact List.mem_map.mpr ⟨a, List.mem_cons_self _ _, hall a (List.mem_cons_self _ _)⟩
    have hmap : ∀ x ∈ ivals.map cf, x = s := by
      intro x hx
      obtain ⟨iv, hiv, rfl⟩ := List.mem_map.mp hx
      exact hall iv hiv
    have hmapne : ivals.map cf ≠ [] := fun h => by
      rw [h] at hs; cases hs
    have hded : (ivals.map cf).dedup = [s] := dedup_all_eq hmap hmapne
    have hr : "retail" ∉ [s] := by
      intro h
      have : s = "retail" := (List.mem_singleton.mp h).symm
      rw [this] at hs
      exact hnr hs
    rcases hc with hok | ⟨hfnf, hcf⟩
    · rw [pickSlug_ok_case (trySlugs_ok bash cf ivals hok), hded,
        pickTail_single hr rfl]
      rfl
    · subst hcf
      cases ivals with
      | nil => cases hne rfl
      | cons iv rest =>
        rw [pickSlug_fnf_case (trySlugs_fnf bash iv rest (hfnf _ (List.mem_cons_self _ _))),
          hded, pickTail_single hr rfl]
        rfl

/-- Witness for C4: under the built-in classification (interpreter absent),
the build with versions 11506 ("classic") and 40402 ("cata") spans two
distinct non-retail slugs and resolves to the classification of the
maximum, 40402, which is "cata". -/
theorem resolve_tie_break_witness :
    40402 ∈ [11506, 40402] ∧ (∀ x ∈ [11506, 40402], x ≤ 40402) ∧
      pickSlug (fun _ => Except.error PyError.fileNotFound) [11506, 40402] =
        Except.ok (toc_to_type 40402) :=
  (resolve_tie_break (fun _ => Except.error PyError.fileNotFound) toc_to_type
    [11506, 40402] (Or.inr ⟨fun _ _ => rfl, rfl⟩) (by decide)).1 40402 (by decide) (by decide)

/-- Claim C10: under built-in classification (interpreter absent for the
whole resolution), every slug the resolver returns is one of "", "classic",
"bcc", "wrath", "cata" — in particular never "retail": the empty string is
the resolver's only representation of a retail build. -/
theorem resolver_range :
    ∀ (ivals : List Nat) (s : String),
      pickSlug (fun _ => Except.error PyError.fileNotFound) ivals = Except.ok s →
      s = "" ∨ s = "classic" ∨ s = "bcc" ∨ s = "wrath" ∨ s = "cata" := by
  intro ivals s h
  cases ivals with
  | nil =>
    rw [pickSlug_ok_case (show trySlugs (fun _ => Except.error PyError.fileNotFound) [] =
      Except.ok [] from rfl)] at h
    rw [pickTail_multi_external (by simp) (by simp)] at h
    cases h
  | cons iv rest =>
    rw [pickSlug_fnf_case (trySlugs_fnf _ iv rest rfl)] at h
    by_cases hr : "retail" ∈ (((iv :: rest).map toc_to_type).dedup)
    · rw [pickTail_retail hr] at h
      injection h with h
      exact Or.inl h.symm
    by_cases hl : (((iv :: rest).map toc_to_type).dedup).length = 1
    · rw [pickTail_single hr hl] at h
      injection h with h
      obtain ⟨x, hx⟩ := List.length_eq_one.mp hl
      rw [hx] at h
      have hxs : x ∈ ((iv :: rest).map toc_to_type).dedup := by
        rw [hx]; exact List.mem_singleton.mpr rfl
      obtain ⟨n, _, htoc⟩ := List.mem_map.mp (List.mem_dedup.mp hxs)
      have hxr : x ≠ "retail" := fun he => hr (he ▸ hxs)
      have hs : s = x := by rw [← h]; rfl
      rcases toc_range n with h5 | h5 | h5 | h5 | h5 <;> rw [htoc] at h5
      · exact Or.inr (Or.inl (hs.trans h5))
      · exact Or.inr (Or.inr (Or.inl (hs.trans h5)))
      · exact Or.inr (Or.inr (Or.inr (Or.inl (hs.trans h5))))
      · exact Or.inr (Or.inr (Or.inr (Or.inr (hs.trans h5))))
      · exact absurd h5 hxr
    · rw [pickTail_multi_fallback hr hl] at h
      obtain ⟨m, hm⟩ := pymax_cons iv rest
      rw [hm] at h
      injection h with h
      have hmem : toc_to_type m ∈ ((iv :: rest).map toc_to_type).dedup :=
        List.mem_dedup.mpr (List.mem_map.mpr ⟨m, pymax_mem hm, rfl⟩)
      have hmr : toc_to_type m ≠ "retail" := fun he => hr (he ▸ hmem)
      rcases toc_range m with h5 | h5 | h5 | h5 | h5
      · exact Or.inr (Or.inl (h.symm.trans h5))
      · exact Or.inr (Or.inr (Or.inl (h.symm.trans h5)))
      · exact Or.inr (Or.inr (Or.inr (Or.inl (h.symm.trans h5))))
      · exact Or.inr (Or.inr (Or.inr (Or.inr (h.symm.trans h5))))
      · exact absurd h5 hmr

/-- Witness for C10: the single-version retail build [90205] resolves to
the empty slug under built-in classification, and the theorem places that
result inside the allowed range. -/
theorem resolver_range_witness :
    pickSlug (fun _ => Except.error PyError.fileNotFound) [90205] = Except.ok "" ∧
    ("" = "" ∨ "" = "classic" ∨ "" = "bcc" ∨ "" = "wrath" ∨ "" = "cata") :=
  ⟨rfl, resolver_range [90205] "" rfl⟩

/-- Invariant of the `latest` dict of `_get_latest_files`: every stored
file passed the `releaseType == 1` filter and is keyed by its own id. -/
def DictInv (d : List (Nat × CFile)) : Prop :=
  ∀ p ∈ d, p.2.releaseType = 1 ∧ p.2.id = p.1

lemma dictInsert_inv {d : List (Nat × CFile)} {k : Nat} {v : CFile}
    (hd : DictInv d) (hv : v.releaseType = 1) (hk : v.id = k) :
    DictInv (dictInsert d k v) := by
  unfold dictInsert
  split_ifs with h
  · intro p hp
    obtain ⟨q, hq, hpe⟩ := List.mem_map.mp hp
    by_cases hqk : q.1 = k
    · rw [← hpe, if_pos hqk]
      exact ⟨hv, hk⟩
    · rw [← hpe, if_neg hqk]
      exact hd q hq
  · intro p hp
    rcases List.mem_append.mp hp with hp | hp
    · exact hd p hp
    · rcases List.mem_singleton.mp hp with rfl
      exact ⟨hv, hk⟩

lemma foldl_dict_inv (files : List CFile) (d : List (Nat × CFile)) (hd : DictInv d) :
    DictInv (files.foldl
      (fun d f => if f.releaseType = 1 then dictInsert d f.id f else d) d) := by
  induction files generalizing d with
  | nil => exact hd
  | cons f fs ih =>
    rw [List.foldl_cons]
    apply ih
    split_ifs with h
    · exact dictInsert_inv hd h rfl
    · exact hd

lemma buildLatestDict_inv (files : List CFile) : DictInv (buildLatestDict files) :=
  foldl_dict_inv files [] (fun p hp => absurd hp (List.not_mem_nil p))

lemma dictFind_inv {d : List (Nat × CFile)} {k : Nat} {f : CFile}
    (hd : DictInv d) (h : dictFind d k = some f) :
    f.releaseType = 1 ∧ f.id = k := by
  unfold dictFind at h
  cases hfind : d.find? (fun p => p.1 = k) with
  | none => rw [hfind] at h; cases h
  | some p =>
    rw [hfind] at h
    have hpe : p.2 = f := Option.some.inj h
    have hkey : p.1 = k := by
      have hb := List.find?_some hfind
      simpa using hb
    obtain ⟨h1, h2⟩ := hd p (List.mem_of_find?_eq_some hfind)
    subst hpe
    exact ⟨h1, h2.trans hkey⟩

lemma selectLoop_rt (idxs : List Nat) (latest : List (Nat × CFile))
    (hl : DictInv latest) :
    ∀ (seen : List Nat) (ordered : List CFile),
      (∀ f ∈ ordered, f.releaseType = 1) →
      ∀ f ∈ selectLoop idxs seen ordered latest, f.releaseType = 1 := by
  induction idxs with
  | nil => intro seen ordered ho; exact ho
  | cons fid rest ih =>
    intro seen ordered ho
    unfold selectLoop
    split_ifs with h
    · exact ih _ _ ho
    · cases hf : dictFind latest fid with
      | none => exact ih _ _ ho
      | some f =>
        apply ih
        intro g hg
        rcases List.mem_append.mp hg with hg | hg
        · exact ho g hg
        · rcases List.mem_singleton.mp hg with rfl
          exact (dictFind_inv hl hf).1

lemma selectLoop_nodup (idxs : List Nat) (latest : List (Nat × CFile))
    (hl : DictInv latest) :
    ∀ (seen : List Nat) (ordered : List CFile),
      (ordered.map CFile.id).Nodup →
      (∀ f ∈ ordered, f.id ∈ seen) →
      ((selectLoop idxs seen ordered latest).map CFile.id).Nodup := by
  induction idxs with
  | nil => intro seen ordered hn _; exact hn
  | cons fid rest ih =>
    intro seen ordered hn hs
    unfold selectLoop
    split_ifs with h
    · exact ih _ _ hn hs
    · cases hf : dictFind latest fid with
      | none => exact ih _ _ hn hs
      | some f =>
        apply ih
        · rw [List.map_append]
          have hfid : f.id = fid := (dictFind_inv hl hf).2
          refine List.Nodup.append hn (List.nodup_singleton _) ?_
          intro a ha hb
          have hab : a = f.id := List.mem_singleton.mp hb
          rw [hab] at ha
          obtain ⟨g, hg, hge⟩ := List.mem_map.mp ha
          exact h (by rw [← hfid, ← hge]; exact hs g hg)
        · intro g hg
          rcases List.mem_append.mp hg with hg | hg
          · exact List.mem_cons_of_mem _ (hs g hg)
          · rcases List.mem_singleton.mp hg with rfl
            rw [(dictFind_inv hl hf).2]
            exact List.mem_cons_self _ _

lemma selectLoop_subl (idxs : List Nat) (latest : List (Nat × CFile))
    (hl : DictInv latest) :
    ∀ (seen : List Nat) (ordered : List CFile),
      ∃ t, (selectLoop idxs seen ordered latest).map CFile.id =
          ordered.map CFile.id ++ t ∧ t.Sublist idxs := by
  induction idxs with
  | nil =>
    intro seen ordered
    exact ⟨[], by simp [selectLoop], List.nil_sublist _⟩
  | cons fid rest ih =>
    intro seen ordered
    unfold selectLoop
    split_ifs with h
    · obtain ⟨t, ht, hsub⟩ := ih seen ordered
      exact ⟨t, ht, List.Sublist.cons fid hsub⟩
    · cases hf : dictFind latest fid with
      | none =>
        obtain ⟨t, ht, hsub⟩ := ih seen ordered
        exact ⟨t, ht, List.Sublist.cons fid hsub⟩
      | some f =>
        obtain ⟨t, ht, hsub⟩ := ih (fid :: seen) (ordered ++ [f])
        refine ⟨fid :: t, ?_, List.Sublist.cons₂ fid hsub⟩
        rw [ht, List.map_append]
        simp [(dictFind_inv hl hf).2]

/-- Claim C8: the selected latest builds contain only files whose
`releaseType` is Release (value 1), contain no duplicate file ids, and
their id sequence is a sublist of (appears in the order declared by) the
hosting service's `latestFilesIndexes` listing. -/
theorem latest_files_selection :
    ∀ (files : List CFile) (indexes : List Nat),
      (∀ f ∈ getLatestFiles files indexes, f.releaseType = 1) ∧
      ((getLatestFiles files indexes).map CFile.id).Nodup ∧
      ((getLatestFiles files indexes).map CFile.id).Sublist indexes := by
  intro files indexes
  have hl : DictInv (buildLatestDict files) := buildLatestDict_inv files
  refine ⟨?_, ?_, ?_⟩
  · exact selectLoop_rt indexes _ hl [] []
      (fun f hf => absurd hf (List.not_mem_nil f))
  · exact selectLoop_nodup indexes _ hl [] [] List.nodup_nil
      (fun f hf => absurd hf (List.not_mem_nil f))
  · obtain ⟨t, ht, hsub⟩ := selectLoop_subl indexes _ hl [] []
    unfold getLatestFiles
    rw [ht]
    simpa using hsub

/-- Witness for C8: a concrete fetch with a Beta file (releaseType 2), a
duplicated index entry, and an index id with no eligible file; the
selection keeps only Release files, deduplicates, and follows the index
order; evaluation confirms the selected list. -/
theorem latest_files_selection_witness :
    (∀ f ∈ getLatestFiles
        [⟨10, 1, "A-1.0.0.zip"⟩, ⟨11, 2, "B.zip"⟩, ⟨12, 1, "C.zip"⟩]
        [12, 11, 10, 12],
      f.releaseType = 1) ∧
    ((getLatestFiles
        [⟨10, 1, "A-1.0.0.zip"⟩, ⟨11, 2, "B.zip"⟩, ⟨12, 1, "C.zip"⟩]
        [12, 11, 10, 12]).map CFile.id).Nodup ∧
    ((getLatestFiles
        [⟨10, 1, "A-1.0.0.zip"⟩, ⟨11, 2, "B.zip"⟩, ⟨12, 1, "C.zip"⟩]
        [12, 11, 10, 12]).map CFile.id).Sublist [12, 11, 10, 12] ∧
    getLatestFiles
        [⟨10, 1, "A-1.0.0.zip"⟩, ⟨11, 2, "B.zip"⟩, ⟨12, 1, "C.zip"⟩]
        [12, 11, 10, 12] = [⟨12, 1, "C.zip"⟩, ⟨10, 1, "A-1.0.0.zip"⟩] := by
  refine ⟨?_, ?_, ?_, by decide⟩
  · exact (latest_files_selection
      [⟨10, 1, "A-1.0.0.zip"⟩, ⟨11, 2, "B.zip"⟩, ⟨12, 1, "C.zip"⟩] [12, 11, 10, 12]).1
  · exact (latest_files_selection
      [⟨10, 1, "A-1.0.0.zip"⟩, ⟨11, 2, "B.zip"⟩, ⟨12, 1, "C.zip"⟩] [12, 11, 10, 12]).2.1
  · exact (latest_files_selection
      [⟨10, 1, "A-1.0.0.zip"⟩, ⟨11, 2, "B.zip"⟩, ⟨12, 1, "C.zip"⟩] [12, 11, 10, 12]).2.2

/-- Claim C9: the publish step is idempotent on the release tag: the
create `POST` is issued exactly when the lookup by tag returns status 404;
when the lookup succeeds (an existing release with that tag) its upload
target is reused and no create is issued; any other error status on the
lookup is fatal to the attempt. -/
theorem release_lookup_idempotent :
    ∀ lookup create : HttpResp,
      ((getOrCreateRelease lookup create).createPosted = true ↔ lookup.status = 404) ∧
      (lookup.status ≠ 404 → ¬ raisesForStatus lookup.status →
        getOrCreateRelease lookup create =
          ⟨false, Except.ok (uploadTarget lookup.uploadUrl)⟩) ∧
      (lookup.status ≠ 404 → raisesForStatus lookup.status →
        getOrCreateRelease lookup create = ⟨false, Except.error lookup.status⟩) := by
  intro lookup create
  refine ⟨?_, ?_, ?_⟩
  · unfold getOrCreateRelease
    split_ifs with h1 h2 <;> simp_all
  · intro h1 h2
    unfold getOrCreateRelease
    rw [if_neg h1, if_neg h2]
  · intro h1 h2
    unfold getOrCreateRelease
    rw [if_neg h1, if_pos h2]

/-- Witness for C9: a successful lookup (200) reuses the existing upload
target with no create; a 404 lookup posts the create; a 500 lookup is
fatal with its status. -/
theorem release_lookup_idempotent_witness :
    getOrCreateRelease ⟨200, "U\x7bP".toList⟩ ⟨201, "C".toList⟩ =
      ⟨false, Except.ok (uploadTarget "U\x7bP".toList)⟩ ∧
    ((getOrCreateRelease ⟨404, "U".toList⟩ ⟨201, "C".toList⟩).createPosted = true ↔
      (404 : Nat) = 404) ∧
    getOrCreateRelease ⟨500, "U".toList⟩ ⟨201, "C".toList⟩ =
      ⟨false, Except.error 500⟩ :=
  ⟨(release_lookup_idempotent ⟨200, "U\x7bP".toList⟩ ⟨201, "C".toList⟩).2.1
      (by decide) (by decide),
   (release_lookup_idempotent ⟨404, "U".toList⟩ ⟨201, "C".toList⟩).1,
   (release_lookup_idempotent ⟨500, "U".toList⟩ ⟨201, "C".toList⟩).2.2
      (by decide) (by decide)⟩
